import Mathlib

/-!
A shallow embedding of the `SpecAnalyzer` class from
`src/core/spec-analyzer.ts` of the openapi-mcp-transformer repository,
together with proofs about the analysis pipeline.

Modelling conventions:
* A JavaScript object field that may be absent is an `Option`; `none` models
  both a missing key and a JSON `null` value (the analyzer treats the two the
  same at every access it performs).
* A JavaScript object used as a map is an association list in entry order;
  `Object.entries` is the list itself and property lookup is the first
  matching key.
* Only the fields the analyzer actually reads are modelled.
* A JavaScript runtime `TypeError` (reading a property of `undefined`) is
  modelled by `Except.error`; every total computation stays outside `Except`.
-/

namespace SpecAnalyzer

/-- Char-list test that the first list starts the second, a kernel-reducible
stand-in for the corresponding `String` operations. -/
def charsLeads : List Char → List Char → Bool
  | [], _ => true
  | _ :: _, [] => false
  | a :: as, b :: bs => a == b && charsLeads as bs

/-- Char-list substring test: the needle occurs somewhere in the haystack. -/
def charsContains (needle : List Char) : List Char → Bool
  | [] => needle.isEmpty
  | c :: rest => charsLeads needle (c :: rest) || charsContains needle rest

/-- JS `String.prototype.includes`: substring containment (an empty needle is
always contained). -/
def jsIncludes (s sub : String) : Bool :=
  charsContains sub.data s.data

/-- JS `String.prototype.toLowerCase` (ASCII-adequate simple lowercasing). -/
def jsLower (s : String) : String := String.mk (s.data.map Char.toLower)

/-- JS `String.prototype.toUpperCase` (ASCII-adequate simple uppercasing). -/
def jsUpper (s : String) : String := String.mk (s.data.map Char.toUpper)

/-- JS `String.prototype.startsWith`. -/
def jsStartsWith (s pre : String) : Bool := charsLeads pre.data s.data

/-- JS `String.prototype.endsWith`. -/
def jsEndsWith (s post : String) : Bool := charsLeads post.data.reverse s.data.reverse

/-- JS object property lookup on an association list: first matching key. -/
def jsGet (entries : List (String × α)) (key : String) : Option α :=
  (entries.find? (fun kv => kv.1 == key)).map (fun kv => kv.2)

/-- A parameter object; the analyzer reads only `name`, which a malformed
document may omit (`p.name.toLowerCase()` then throws in JS). -/
structure Param where
  name : Option String
deriving Repr, DecidableEq

/-- The `items` sub-schema of an array-typed property; only `$ref` is read. -/
structure PropItems where
  ref : Option String
deriving Repr, DecidableEq

/-- A property schema: `$ref` (modelled as `ref`), `type`, `items.$ref`. -/
structure PropSchema where
  ref : Option String
  type : Option String
  items : Option PropItems
deriving Repr, DecidableEq

/-- A named schema; the analyzer reads only its `properties` map. -/
structure Schema where
  properties : Option (List (String × PropSchema))
deriving Repr, DecidableEq

/-- A media-type object; the analyzer reads only `schema`. -/
structure MediaType where
  schema : Option Schema
deriving Repr, DecidableEq

/-- A request body; the analyzer reads `content[mediaType].schema`. -/
structure RequestBody where
  content : Option (List (String × MediaType))
deriving Repr, DecidableEq

/-- A response object: `description`, and the names of declared headers
(membership models a present, truthy header entry). -/
structure Response where
  description : Option String
  headers : Option (List String)
deriving Repr, DecidableEq

/-- An operation object, restricted to the fields the analyzer reads. -/
structure Operation where
  summary : Option String
  description : Option String
  parameters : Option (List Param)
  requestBody : Option RequestBody
  responses : Option (List (String × Response))
deriving Repr, DecidableEq

/-- A value sitting under a method-like key of a path item: either an object
with operation-shaped fields, or anything else (strings, arrays without the
probed keys, ...), which `isOperation` filters out. -/
inductive PathValue where
  | opObj (o : Operation)
  | other
deriving Repr, DecidableEq

/-- The `components` section: named schemas, and whether a truthy
`securitySchemes` value is present (`!!spec.components?.securitySchemes`). -/
structure Components where
  schemas : Option (List (String × Schema))
  securitySchemes : Bool
deriving Repr, DecidableEq

/-- The input document, restricted to the sections the analyzer reads.
`webhooks` records the truthiness of `spec.webhooks`. -/
structure OpenAPISpec where
  paths : Option (List (String × List (String × PathValue)))
  components : Option Components
  webhooks : Bool
deriving Repr, DecidableEq

/-- An analyzed endpoint record (`AnalyzedEndpoint` in types/analysis.ts). -/
structure AnalyzedEndpoint where
  path : String
  method : String
  operation : Operation
  isAction : Bool
  isResource : Bool
  complexity : Nat
deriving Repr, DecidableEq

/-- An analyzed resource record (`AnalyzedResource`). -/
structure AnalyzedResource where
  name : String
  schema : Schema
  isCore : Bool
  relationships : List String
deriving Repr, DecidableEq

/-- A workflow step; absent fields are `none`. -/
structure WorkflowStep where
  action : String
  endpoint : Option String
  description : Option String
deriving Repr, DecidableEq

/-- A workflow pattern; `type` is kept as the raw string the code stores, so
that conformance to the declared union type can itself be examined. -/
structure WorkflowPattern where
  name : String
  type : String
  steps : List WorkflowStep
deriving Repr, DecidableEq

/-- A resource relationship record; `from` and `to` are Lean keywords, hence `from_` and `to_`. -/
structure ResourceRelationship where
  from_ : String
  to_ : String
  type : String
deriving Repr, DecidableEq

/-- An error pattern record. -/
structure ErrorPattern where
  statusCode : String
  endpoint : String
  description : String
  recoverable : Bool
deriving Repr, DecidableEq

/-- The capability flags; the two context-overlay flags are optional and
absent (`none`) until `analyzeWithContext` sets them. -/
structure APICapabilities where
  hasPagination : Bool
  hasBatchOperations : Bool
  hasWebhooks : Bool
  hasAsyncOperations : Bool
  hasAuthentication : Bool
  hasRateLimiting : Bool
  requiresStrictValidation : Option Bool
  hasTestMode : Option Bool
deriving Repr, DecidableEq, Inhabited

/-- The analysis model (`SpecAnalysis` in types/analysis.ts). -/
structure SpecAnalysis where
  hasTools : Bool
  hasResources : Bool
  hasPrompts : Bool
  requiresSampling : Option Bool
  requiresContextManagement : Option Bool
  requiresErrorIntelligence : Option Bool
  endpoints : List AnalyzedEndpoint
  resources : List AnalyzedResource
  workflows : List WorkflowPattern
  relationships : List ResourceRelationship
  errorPatterns : List ErrorPattern
  capabilities : APICapabilities
deriving Repr, DecidableEq, Inhabited

/-- `isOperation`: a truthy object holding a `summary`, `description` or
`responses` key. -/
def isOperation : PathValue → Bool
  | PathValue.opObj o => o.summary.isSome || o.description.isSome || o.responses.isSome
  | PathValue.other => false

/-- `isActionEndpoint`: mutating verb, or a summary mentioning
create/update/delete (case-insensitively). -/
def isActionEndpoint (method : String) (op : Operation) : Bool :=
  ["POST", "PUT", "PATCH", "DELETE"].contains (jsUpper method) ||
    (match op.summary with
     | some s =>
        jsIncludes (jsLower s) "create" || jsIncludes (jsLower s) "update" ||
          jsIncludes (jsLower s) "delete"
     | none => false)

/-- `hasSideEffects`: summary mentions trigger/send/execute. -/
def hasSideEffects (op : Operation) : Bool :=
  match op.summary with
  | some s =>
      jsIncludes (jsLower s) "trigger" || jsIncludes (jsLower s) "send" ||
        jsIncludes (jsLower s) "execute"
  | none => false

/-- `isResourceEndpoint`: a GET without side-effect keywords. -/
def isResourceEndpoint (method : String) (op : Operation) : Bool :=
  jsUpper method == "GET" && !hasSideEffects op

/-- `getRequestBodySchema`: `requestBody.content?.['application/json']?.schema`. -/
def getRequestBodySchema (rb : RequestBody) : Option Schema :=
  (rb.content.bind (fun c => jsGet c "application/json")).bind (fun mt => mt.schema)

/-- `calculateComplexity`: 1, plus `⌊params/3⌋`, plus 1 for a request body
(plus 1 more when its JSON schema has more than 5 properties), plus 1 when
there are more than 3 response entries. -/
def calculateComplexity (op : Operation) : Nat :=
  1 + (op.parameters.getD []).length / 3
    + (match op.requestBody with
       | some rb =>
          1 + (match getRequestBodySchema rb with
               | some s =>
                  match s.properties with
                  | some props => if props.length > 5 then 1 else 0
                  | none => 0
               | none => 0)
       | none => 0)
    + (if (op.responses.getD []).length > 3 then 1 else 0)

/-- `isCoreResource`: the name contains one of five keywords. -/
def isCoreResource (name : String) (_schema : Schema) : Bool :=
  ["user", "account", "organization", "project", "product"].any
    (fun pat => jsIncludes (jsLower name) pat)

/-- The char-list suffix after the first occurrence of a pattern, if any. -/
def charsAfterFirst (pat : List Char) : List Char → Option (List Char)
  | [] => none
  | c :: rest =>
      if charsLeads pat (c :: rest) then some ((c :: rest).drop pat.length)
      else charsAfterFirst pat rest

/-- `extractRefName`: the JS regex `#\/components\/schemas\/(.+)` captures
everything (at least one character) after the first occurrence of the prefix
(names containing a newline, which the regex would truncate, are not
modelled). -/
def extractRefName (ref : String) : Option String :=
  match charsAfterFirst "#/components/schemas/".data ref.data with
  | none => none
  | some tail => if tail.isEmpty then none else some (String.mk tail)

/-- One candidate relationship from a (possibly absent) `$ref` value: the
extracted target name, kept when truthy and different from the owner. -/
def refCandidate (name : String) (oref : Option String) : List String :=
  match oref with
  | some r =>
      if r.isEmpty then []
      else
        match extractRefName r with
        | some refName => if refName != name then [refName] else []
        | none => []
  | none => []

/-- `[...new Set(xs)]`: deduplication keeping first occurrences in order. -/
def jsSetDedup (l : List String) : List String :=
  l.foldl (fun acc x => if acc.contains x then acc else acc ++ [x]) []

/-- `findSchemaRelationships`: direct `$ref` properties and array-item
`$ref`s, self-references excluded, deduplicated. -/
def findSchemaRelationships (name : String) (schema : Schema) : List String :=
  jsSetDedup
    ((schema.properties.getD []).flatMap (fun kv =>
      refCandidate name kv.2.ref ++
        refCandidate name
          (if kv.2.type == some "array" then kv.2.items.bind PropItems.ref else none)))

/-- `determineRelationshipType`: first property whose pointer mentions the
target, classified by its name suffix. -/
def determineRelationshipType (schema : Schema) (relatedResource : String) : String :=
  match (schema.properties.getD []).find? (fun kv =>
      (match kv.2.ref with
       | some r => jsIncludes r relatedResource
       | none => false) ||
      (match kv.2.items.bind PropItems.ref with
       | some r => jsIncludes r relatedResource
       | none => false)) with
  | none => "unknown"
  | some kv =>
      if jsEndsWith kv.1 "Id" || jsEndsWith kv.1 "_id" then "belongs_to"
      else if jsEndsWith kv.1 "s" || jsEndsWith kv.1 "List" then "has_many"
      else "has_one"

/-- An entry of a path item, turned into an endpoint when `isOperation`. -/
def endpointOfEntry (path : String) (kv : String × PathValue) : Option AnalyzedEndpoint :=
  match kv.2 with
  | PathValue.opObj o =>
      if isOperation (PathValue.opObj o) then
        some
          { path := path
            method := jsUpper kv.1
            operation := o
            isAction := isActionEndpoint kv.1 o
            isResource := isResourceEndpoint kv.1 o
            complexity := calculateComplexity o }
      else none
  | PathValue.other => none

/-- `analyzePaths`: every path entry, every method-like entry beneath it. -/
def analyzePaths (spec : OpenAPISpec) : List AnalyzedEndpoint :=
  (spec.paths.getD []).flatMap (fun pkv => pkv.2.filterMap (endpointOfEntry pkv.1))

/-- The schema map: `spec.components?.schemas || {}`. -/
def jsSchemas (spec : OpenAPISpec) : List (String × Schema) :=
  match spec.components with
  | some c => c.schemas.getD []
  | none => []

/-- `analyzeSchemas`, resource part: one record per named schema. -/
def analyzeResources (spec : OpenAPISpec) : List AnalyzedResource :=
  (jsSchemas spec).map (fun kv =>
    { name := kv.1
      schema := kv.2
      isCore := isCoreResource kv.1 kv.2
      relationships := findSchemaRelationships kv.1 kv.2 })

/-- The first path segment, per the regex `^\/([^\/]+)`. -/
def firstPathSegment (path : String) : Option String :=
  if jsStartsWith path "/" then
    let seg := (path.data.drop 1).takeWhile (fun c => c != '/')
    if seg.isEmpty then none else some (String.mk seg)
  else none

/-- Insertion-ordered grouping, mirroring a JS `Map` of arrays. -/
def insertGrouped (acc : List (String × List AnalyzedEndpoint)) (key : String)
    (e : AnalyzedEndpoint) : List (String × List AnalyzedEndpoint) :=
  match acc with
  | [] => [(key, [e])]
  | kv :: rest =>
      if kv.1 == key then (kv.1, kv.2 ++ [e]) :: rest
      else kv :: insertGrouped rest key e

/-- Group endpoints by first path segment, in first-appearance order. -/
def groupByResource (endpoints : List AnalyzedEndpoint) :
    List (String × List AnalyzedEndpoint) :=
  endpoints.foldl (fun acc e =>
    match firstPathSegment e.path with
    | some r => insertGrouped acc r e
    | none => acc) []

/-- The fixed 5-step CRUD skeleton for a resource. -/
def crudSteps (resource : String) : List WorkflowStep :=
  [ { action := "list", endpoint := some ("GET /" ++ resource), description := none },
    { action := "create", endpoint := some ("POST /" ++ resource), description := none },
    { action := "read", endpoint := some ("GET /" ++ resource ++ "/\x7bid\x7d"), description := none },
    { action := "update", endpoint := some ("PUT /" ++ resource ++ "/\x7bid\x7d"), description := none },
    { action := "delete", endpoint := some ("DELETE /" ++ resource ++ "/\x7bid\x7d"), description := none } ]

/-- `detectCRUDPatterns`: groups whose method set covers GET/POST/PUT/DELETE. -/
def detectCRUDPatterns (endpoints : List AnalyzedEndpoint) : List WorkflowPattern :=
  (groupByResource endpoints).filterMap (fun kv =>
    let methods := kv.2.map (fun e => e.method)
    if methods.contains "GET" && methods.contains "POST" &&
        methods.contains "PUT" && methods.contains "DELETE" then
      some { name := kv.1 ++ "_crud", type := "crud", steps := crudSteps kv.1 }
    else none)

/-- `hasAuthenticationFlow`: some path mentions auth/login/token. -/
def hasAuthenticationFlow (endpoints : List AnalyzedEndpoint) : Bool :=
  endpoints.any (fun e =>
    jsIncludes e.path "auth" || jsIncludes e.path "login" || jsIncludes e.path "token")

/-- The fixed auth workflow steps. -/
def buildAuthWorkflow : List WorkflowStep :=
  [ { action := "authenticate", endpoint := none, description := some "Obtain credentials" },
    { action := "validate", endpoint := none, description := some "Validate credentials" },
    { action := "authorize", endpoint := none, description := some "Get access token" },
    { action := "refresh", endpoint := none, description := some "Refresh token if needed" } ]

/-- The fixed pagination workflow steps. -/
def buildPaginationWorkflow : List WorkflowStep :=
  [ { action := "initial_request", endpoint := none, description := some "Fetch first page" },
    { action := "check_more", endpoint := none, description := some "Check if more pages exist" },
    { action := "fetch_next", endpoint := none, description := some "Fetch next page" },
    { action := "aggregate", endpoint := none, description := some "Combine results" } ]

/-- The fixed file-upload workflow steps. -/
def buildFileUploadWorkflow : List WorkflowStep :=
  [ { action := "prepare", endpoint := none, description := some "Prepare file for upload" },
    { action := "validate", endpoint := none, description := some "Validate file requirements" },
    { action := "upload", endpoint := none, description := some "Upload file" },
    { action := "verify", endpoint := none, description := some "Verify upload success" } ]

/-- JS `x.toLowerCase()` on a possibly-undefined value: throws a `TypeError`
when the value is `undefined`. -/
def jsLowerOf : Option String → Except String String
  | some s => Except.ok (jsLower s)
  | none => Except.error "TypeError: cannot read toLowerCase of undefined"

/-- JS `Array.prototype.some` with a predicate that may throw: evaluates left
to right and short-circuits at the first `true`. -/
def someE (f : α → Except String Bool) : List α → Except String Bool
  | [] => Except.ok false
  | x :: xs =>
      match f x with
      | Except.error e => Except.error e
      | Except.ok true => Except.ok true
      | Except.ok false => someE f xs

/-- `hasPaginationParameters`: some parameter named page/limit/offset/cursor;
throws when a parameter has no name. -/
def hasPaginationParameters (op : Operation) : Except String Bool :=
  someE (fun p =>
      match jsLowerOf p.name with
      | Except.error e => Except.error e
      | Except.ok n => Except.ok (["page", "limit", "offset", "cursor"].contains n))
    (op.parameters.getD [])

/-- `hasPaginationPattern`: some endpoint has pagination parameters. -/
def hasPaginationPattern (endpoints : List AnalyzedEndpoint) : Except String Bool :=
  someE (fun e => hasPaginationParameters e.operation) endpoints

/-- `hasFileUploadPattern`: some request body declares multipart content. -/
def hasFileUploadPattern (endpoints : List AnalyzedEndpoint) : Bool :=
  endpoints.any (fun e =>
    match e.operation.requestBody with
    | some rb => (rb.content.bind (fun c => jsGet c "multipart/form-data")).isSome
    | none => false)

/-- `detectWorkflows`: CRUD groups, then one fixed auth, pagination and
file-upload workflow each when detected.  The pagination workflow is stored
with `type: 'navigation'` exactly as the source writes it. -/
def detectWorkflows (endpoints : List AnalyzedEndpoint) :
    Except String (List WorkflowPattern) :=
  let ws := detectCRUDPatterns endpoints
  let ws :=
    if hasAuthenticationFlow endpoints then
      ws ++ [{ name := "authentication", type := "auth", steps := buildAuthWorkflow }]
    else ws
  match hasPaginationPattern endpoints with
  | Except.error e => Except.error e
  | Except.ok pag =>
      let ws :=
        if pag then
          ws ++ [{ name := "pagination", type := "navigation", steps := buildPaginationWorkflow }]
        else ws
      let ws :=
        if hasFileUploadPattern endpoints then
          ws ++ [{ name := "fileUpload", type := "multipart", steps := buildFileUploadWorkflow }]
        else ws
      Except.ok ws

/-- `analyzeRelationships`: one record per related name of each resource. -/
def analyzeRelationships (resources : List AnalyzedResource) : List ResourceRelationship :=
  resources.flatMap (fun res =>
    res.relationships.map (fun rel =>
      { from_ := res.name
        to_ := rel
        type := determineRelationshipType res.schema rel }))

/-- `isRecoverableError`: 429/503/504, or a description mentioning retry. -/
def isRecoverableError (statusCode : String) (r : Response) : Bool :=
  ["429", "503", "504"].contains statusCode ||
    (match r.description with
     | some d => jsIncludes (jsLower d) "retry"
     | none => false)

/-- `detectErrorPatterns`: one record per 4xx/5xx response entry. -/
def detectErrorPatterns (endpoints : List AnalyzedEndpoint) : List ErrorPattern :=
  endpoints.flatMap (fun e =>
    (e.operation.responses.getD []).filterMap (fun kv =>
      if jsStartsWith kv.1 "4" || jsStartsWith kv.1 "5" then
        some
          { statusCode := kv.1
            endpoint := e.method ++ " " ++ e.path
            description := kv.2.description.getD ""
            recoverable := isRecoverableError kv.1 kv.2 }
      else none))

/-- `analyzeCapabilities`: the six capability flags; re-evaluates the
pagination scan (and so can throw at the same parameter). -/
def analyzeCapabilities (spec : OpenAPISpec) (endpoints : List AnalyzedEndpoint) :
    Except String APICapabilities :=
  match hasPaginationPattern endpoints with
  | Except.error e => Except.error e
  | Except.ok pag =>
      Except.ok
        { hasPagination := pag
          hasBatchOperations :=
            endpoints.any (fun e => jsIncludes e.path "batch" || jsIncludes e.path "bulk")
          hasWebhooks := spec.webhooks || endpoints.any (fun e => jsIncludes e.path "webhook")
          hasAsyncOperations :=
            endpoints.any (fun e =>
              match e.operation.responses with
              | some rs => (jsGet rs "202").isSome
              | none => false)
          hasAuthentication :=
            match spec.components with
            | some c => c.securitySchemes
            | none => false
          hasRateLimiting :=
            endpoints.any (fun e =>
              (e.operation.responses.getD []).any (fun kv =>
                match kv.2.headers with
                | some hs => hs.contains "X-RateLimit-Limit" || hs.contains "RateLimit-Limit"
                | none => false))
          requiresStrictValidation := none
          hasTestMode := none }

/-- `analyze`: the full pipeline, in source order; the model is produced only
when no scan threw. -/
def analyze (spec : OpenAPISpec) : Except String SpecAnalysis :=
  let endpoints := analyzePaths spec
  let resources := analyzeResources spec
  match detectWorkflows endpoints with
  | Except.error e => Except.error e
  | Except.ok workflows =>
      let relationships := analyzeRelationships resources
      let errorPatterns := detectErrorPatterns endpoints
      match analyzeCapabilities spec endpoints with
      | Except.error e => Except.error e
      | Except.ok caps =>
          Except.ok
            { hasTools := endpoints.any (fun e => e.isAction || e.complexity > 2)
              hasResources := !(jsSchemas spec).isEmpty
              hasPrompts := workflows.length > 0
              requiresSampling :=
                if workflows.length > 2 || caps.hasAsyncOperations then some true else none
              requiresContextManagement :=
                if relationships.length > 3 then some true else none
              requiresErrorIntelligence :=
                if errorPatterns.length > 5 then some true else none
              endpoints := endpoints
              resources := resources
              workflows := workflows
              relationships := relationships
              errorPatterns := errorPatterns
              capabilities := caps }

/-- A root handed over by the context ({uri, name}); only `name` is read. -/
structure Root where
  name : String
deriving Repr, DecidableEq

/-- The context snapshot consumed by `analyzeWithContext`. -/
structure AnalysisContext where
  environment : Option String
  roots : Option (List Root)
deriving Repr, DecidableEq

/-- Whether some root name contains "test" (`context.roots?.some(...)`). -/
def rootsMentionTest (ctx : AnalysisContext) : Bool :=
  match ctx.roots with
  | some rs => rs.any (fun r => jsIncludes r.name "test")
  | none => false

/-- `analyzeWithContext`: a fresh base analysis with two flags overlaid. -/
def analyzeWithContext (spec : OpenAPISpec) (ctx : AnalysisContext) :
    Except String SpecAnalysis :=
  match analyze spec with
  | Except.error e => Except.error e
  | Except.ok base =>
      let caps := base.capabilities
      let caps :=
        if ctx.environment == some "production" then
          { caps with requiresStrictValidation := some true }
        else caps
      let caps :=
        if rootsMentionTest ctx then { caps with hasTestMode := some true } else caps
      Except.ok { base with capabilities := caps }

/-! ## Proof infrastructure -/

/-- The record `analyze` assembles once both fallible scans have succeeded
(the final state of the mutated `analysis` object in the source). -/
def assembleAnalysis (spec : OpenAPISpec) (workflows : List WorkflowPattern)
    (caps : APICapabilities) : SpecAnalysis :=
  let endpoints := analyzePaths spec
  let resources := analyzeResources spec
  let relationships := analyzeRelationships resources
  let errorPatterns := detectErrorPatterns endpoints
  { hasTools := endpoints.any (fun e => e.isAction || e.complexity > 2)
    hasResources := !(jsSchemas spec).isEmpty
    hasPrompts := workflows.length > 0
    requiresSampling :=
      if workflows.length > 2 || caps.hasAsyncOperations then some true else none
    requiresContextManagement := if relationships.length > 3 then some true else none
    requiresErrorIntelligence := if errorPatterns.length > 5 then some true else none
    endpoints := endpoints
    resources := resources
    workflows := workflows
    relationships := relationships
    errorPatterns := errorPatterns
    capabilities := caps }

lemma analyze_eq (spec : OpenAPISpec) :
    analyze spec =
      match detectWorkflows (analyzePaths spec) with
      | Except.error e => Except.error e
      | Except.ok ws =>
          match analyzeCapabilities spec (analyzePaths spec) with
          | Except.error e => Except.error e
          | Except.ok caps => Except.ok (assembleAnalysis spec ws caps) := rfl

lemma analyze_ok_elim {spec : OpenAPISpec} {m : SpecAnalysis}
    (h : analyze spec = Except.ok m) :
    ∃ ws caps,
      detectWorkflows (analyzePaths spec) = Except.ok ws ∧
      analyzeCapabilities spec (analyzePaths spec) = Except.ok caps ∧
      m = assembleAnalysis spec ws caps := by
  rw [analyze_eq] at h
  cases hw : detectWorkflows (analyzePaths spec) with
  | error e => rw [hw] at h; exact absurd h (by simp)
  | ok ws =>
      rw [hw] at h
      cases hc : analyzeCapabilities spec (analyzePaths spec) with
      | error e => rw [hc] at h; exact absurd h (by simp)
      | ok caps =>
          rw [hc] at h
          simp only [Except.ok.injEq] at h
          exact ⟨ws, caps, rfl, rfl, h.symm⟩

/-- The model a successful analysis produces (used to state witnesses). -/
def modelOf (spec : OpenAPISpec) : SpecAnalysis :=
  match analyze spec with
  | Except.ok m => m
  | Except.error _ => default

lemma someE_ok_of_forall {α : Type} {f : α → Except String Bool} {l : List α}
    (h : ∀ x ∈ l, ∃ b, f x = Except.ok b) : ∃ b, someE f l = Except.ok b := by
  induction l with
  | nil => exact ⟨false, rfl⟩
  | cons x xs ih =>
      obtain ⟨b, hb⟩ := h x (List.mem_cons_self x xs)
      cases b with
      | true => exact ⟨true, by simp [someE, hb]⟩
      | false =>
          obtain ⟨b2, hb2⟩ := ih (fun y hy => h y (List.mem_cons_of_mem x hy))
          exact ⟨b2, by simp [someE, hb, hb2]⟩

lemma mem_of_mem_jsSetDedup_aux {x : String} (l acc : List String)
    (h : x ∈ l.foldl (fun acc y => if acc.contains y then acc else acc ++ [y]) acc) :
    x ∈ acc ∨ x ∈ l := by
  induction l generalizing acc with
  | nil => exact Or.inl h
  | cons y ys ih =>
      rcases ih _ h with hacc | hys
      · simp only [] at hacc
        by_cases hy : acc.contains y = true
        · rw [if_pos hy] at hacc
          exact Or.inl hacc
        · rw [if_neg hy] at hacc
          rcases List.mem_append.mp hacc with h1 | h2
          · exact Or.inl h1
          · exact Or.inr (List.mem_cons.mpr (Or.inl (List.mem_singleton.mp h2)))
      · exact Or.inr (List.mem_cons_of_mem y hys)

lemma mem_of_mem_jsSetDedup {x : String} {l : List String}
    (h : x ∈ jsSetDedup l) : x ∈ l := by
  rcases mem_of_mem_jsSetDedup_aux l [] h with h0 | h1
  · exact absurd h0 (List.not_mem_nil x)
  · exact h1

lemma refCandidate_ne {name x : String} {oref : Option String}
    (h : x ∈ refCandidate name oref) : x ≠ name := by
  unfold refCandidate at h
  cases oref with
  | none => exact absurd h (List.not_mem_nil x)
  | some r =>
      simp only [] at h
      by_cases hr : r.isEmpty = true
      · rw [if_pos hr] at h
        exact absurd h (List.not_mem_nil x)
      · rw [if_neg hr] at h
        cases he : extractRefName r with
        | none => rw [he] at h; simp only [] at h; exact absurd h (List.not_mem_nil x)
        | some refName =>
            rw [he] at h
            simp only [] at h
            by_cases hne : (refName != name) = true
            · rw [if_pos hne] at h
              rw [List.mem_singleton.mp h]
              simpa using hne
            · rw [if_neg hne] at h
              exact absurd h (List.not_mem_nil x)

lemma mem_findSchemaRelationships_ne {x nm : String} {s : Schema}
    (h : x ∈ findSchemaRelationships nm s) : x ≠ nm := by
  unfold findSchemaRelationships at h
  have h2 := mem_of_mem_jsSetDedup h
  rcases List.mem_flatMap.mp h2 with ⟨kv, _, hkv⟩
  rcases List.mem_append.mp hkv with h3 | h3
  · exact refCandidate_ne h3
  · exact refCandidate_ne h3

lemma endpointOfEntry_eq_some {path : String} {kv : String × PathValue}
    {e : AnalyzedEndpoint} (h : endpointOfEntry path kv = some e) :
    isOperation kv.2 = true ∧ e.path = path ∧ e.method = jsUpper kv.1 ∧
      kv.2 = PathValue.opObj e.operation := by
  unfold endpointOfEntry at h
  cases hv : kv.2 with
  | other => rw [hv] at h; simp only [] at h; exact absurd h (by simp)
  | opObj o =>
      rw [hv] at h
      simp only [] at h
      by_cases hop : isOperation (PathValue.opObj o) = true
      · rw [if_pos hop] at h
        simp only [Option.some.injEq] at h
        subst h
        exact ⟨hop, rfl, rfl, rfl⟩
      · rw [if_neg hop] at h
        exact absurd h (by simp)

lemma mem_analyzePaths_elim {spec : OpenAPISpec} {e : AnalyzedEndpoint}
    (h : e ∈ analyzePaths spec) :
    ∃ pkv ∈ spec.paths.getD [], ∃ mkv ∈ pkv.2,
      isOperation mkv.2 = true ∧ e.path = pkv.1 ∧ e.method = jsUpper mkv.1 ∧
        mkv.2 = PathValue.opObj e.operation := by
  unfold analyzePaths at h
  rcases List.mem_flatMap.mp h with ⟨pkv, hpkv, hmem⟩
  rcases List.mem_filterMap.mp hmem with ⟨mkv, hmkv, heq⟩
  obtain ⟨h1, h2, h3, h4⟩ := endpointOfEntry_eq_some heq
  exact ⟨pkv, hpkv, mkv, hmkv, h1, h2, h3, h4⟩

lemma mem_analyzeResources_elim {spec : OpenAPISpec} {res : AnalyzedResource}
    (h : res ∈ analyzeResources spec) :
    ∃ kv ∈ jsSchemas spec, res.name = kv.1 ∧ res.schema = kv.2 ∧
      res.relationships = findSchemaRelationships kv.1 kv.2 := by
  unfold analyzeResources at h
  rcases List.mem_map.mp h with ⟨kv, hkv, heq⟩
  subst heq
  exact ⟨kv, hkv, rfl, rfl, rfl⟩

lemma mem_analyzeRelationships_elim {resources : List AnalyzedResource}
    {r : ResourceRelationship} (h : r ∈ analyzeRelationships resources) :
    ∃ res ∈ resources, ∃ rel ∈ res.relationships,
      r.from_ = res.name ∧ r.to_ = rel := by
  unfold analyzeRelationships at h
  rcases List.mem_flatMap.mp h with ⟨res, hres, hmem⟩
  rcases List.mem_map.mp hmem with ⟨rel, hrel, heq⟩
  subst heq
  exact ⟨res, hres, rel, hrel, rfl, rfl⟩

/-! ## Claim C7 -/

/-- Claim C7: analysis is deterministic — two runs of `analyze` on the same
unmodified document yield structurally identical models: the same endpoints,
resources, workflows, relationships and error patterns in the same order,
and indeed equal models. -/
theorem c7_analyze_deterministic (d : OpenAPISpec) (m₁ m₂ : SpecAnalysis)
    (h₁ : analyze d = Except.ok m₁) (h₂ : analyze d = Except.ok m₂) :
    m₁.endpoints = m₂.endpoints ∧ m₁.resources = m₂.resources ∧
      m₁.workflows = m₂.workflows ∧ m₁.relationships = m₂.relationships ∧
      m₁.errorPatterns = m₂.errorPatterns ∧ m₁ = m₂ := by
  rw [h₁] at h₂
  simp only [Except.ok.injEq] at h₂
  subst h₂
  exact ⟨rfl, rfl, rfl, rfl, rfl, rfl⟩

def docC7 : OpenAPISpec := { paths := some [], components := none, webhooks := false }

def c7model : SpecAnalysis := modelOf docC7

theorem c7_witness :
    c7model.endpoints = c7model.endpoints ∧ c7model.resources = c7model.resources ∧
      c7model.workflows = c7model.workflows ∧
      c7model.relationships = c7model.relationships ∧
      c7model.errorPatterns = c7model.errorPatterns ∧ c7model = c7model :=
  c7_analyze_deterministic docC7 c7model c7model rfl rfl

/-! ## Claim C9 -/

/-- Claim C9: an operation with more than 3 response status entries (the entries of
a JS object, hence distinct) has complexity exactly 1 greater than the same
operation with 3 or fewer response entries, all other fields equal; and every
complexity score is at least 1. -/
theorem c9_complexity_response_step :
    (∀ (op : Operation) (rs : List (String × Response)),
        (op.responses.getD []).length > 3 → rs.length ≤ 3 →
          calculateComplexity op =
            calculateComplexity { op with responses := some rs } + 1) ∧
      ∀ op : Operation, 1 ≤ calculateComplexity op := by
  constructor
  · intro op rs h1 h2
    obtain ⟨s, d, p, rb, resp⟩ := op
    simp only [calculateComplexity]
    rw [if_pos h1]
    have h3 : ¬ (((some rs : Option (List (String × Response))).getD []).length > 3) := by
      simp only [Option.getD]
      omega
    rw [if_neg h3]
  · intro op
    obtain ⟨s, d, p, rb, resp⟩ := op
    simp only [calculateComplexity]
    omega

def c9opMany : Operation :=
  { summary := none, description := none, parameters := none, requestBody := none,
    responses := some [("200", { description := none, headers := none }),
                       ("400", { description := none, headers := none }),
                       ("404", { description := none, headers := none }),
                       ("500", { description := none, headers := none })] }

theorem c9_witness :
    (c9opMany.responses.getD []).length > 3 ∧
      ([] : List (String × Response)).length ≤ 3 ∧
      calculateComplexity c9opMany =
        calculateComplexity { c9opMany with responses := some [] } + 1 ∧
      1 ≤ calculateComplexity c9opMany :=
  ⟨by decide, by decide,
    c9_complexity_response_step.1 c9opMany [] (by decide) (by decide),
    c9_complexity_response_step.2 c9opMany⟩

/-! ## Claim C10 -/

/-- Claim C10: the `hasResources` flag of a produced model is true exactly when the
document declares at least one named schema under `components.schemas`,
independent of every other section. -/
theorem c10_hasResources_iff_schemas (spec : OpenAPISpec) (m : SpecAnalysis)
    (h : analyze spec = Except.ok m) :
    m.hasResources = true ↔ jsSchemas spec ≠ [] := by
  obtain ⟨ws, caps, hw, hc, rfl⟩ := analyze_ok_elim h
  show (!(jsSchemas spec).isEmpty) = true ↔ jsSchemas spec ≠ []
  cases hjs : jsSchemas spec with
  | nil => simp
  | cons a l => simp

def docC10 : OpenAPISpec :=
  { paths := some []
    components := some { schemas := some [("User", { properties := none })], securitySchemes := false }
    webhooks := false }

def c10model : SpecAnalysis := modelOf docC10

theorem c10_witness : c10model.hasResources = true ↔ jsSchemas docC10 ≠ [] :=
  c10_hasResources_iff_schemas docC10 c10model rfl

/-! ## Claim C8 -/

/-- Claim C8: no relationship record has `from == to`, and no resource lists its
own name among its relationships. -/
theorem c8_no_self_relationship (spec : OpenAPISpec) (m : SpecAnalysis)
    (h : analyze spec = Except.ok m) :
    (∀ r ∈ m.relationships, r.from_ ≠ r.to_) ∧
      ∀ res ∈ m.resources, res.name ∉ res.relationships := by
  obtain ⟨ws, caps, hw, hc, rfl⟩ := analyze_ok_elim h
  constructor
  · intro r hr
    have hr2 : r ∈ analyzeRelationships (analyzeResources spec) := hr
    obtain ⟨res, hres, rel, hrel, hfrom, hto⟩ := mem_analyzeRelationships_elim hr2
    obtain ⟨kv, hkv, hname, hschema, hrels⟩ := mem_analyzeResources_elim hres
    rw [hfrom, hto, hname]
    rw [hrels] at hrel
    have hne := mem_findSchemaRelationships_ne hrel
    exact fun hcontra => hne hcontra.symm
  · intro res hres
    have hres2 : res ∈ analyzeResources spec := hres
    obtain ⟨kv, hkv, hname, hschema, hrels⟩ := mem_analyzeResources_elim hres2
    rw [hrels, hname]
    intro hmem
    exact (mem_findSchemaRelationships_ne hmem) rfl

def docC8 : OpenAPISpec :=
  { paths := some []
    components := some
      { schemas := some
          [("Team",
            { properties := some
                [("owner", { ref := some "#/components/schemas/User", type := none, items := none }),
                 ("self", { ref := some "#/components/schemas/Team", type := none, items := none })] }),
           ("User", { properties := none })]
        securitySchemes := false }
    webhooks := false }

def c8model : SpecAnalysis := modelOf docC8

theorem c8_witness :
    (∀ r ∈ c8model.relationships, r.from_ ≠ r.to_) ∧
      ∀ res ∈ c8model.resources, res.name ∉ res.relationships :=
  c8_no_self_relationship docC8 c8model rfl

/-! ## Claim C6 -/

/-- Claim C6: `analyzeWithContext` returns exactly the model `analyze` produces,
with only the two capability flags overlaid: `requiresStrictValidation`
forced true when the context environment is "production", `hasTestMode`
forced true when some root name contains "test".  In this pure embedding the
base model value is untouched, matching the no-mutation guarantee. -/
theorem c6_context_overlay (spec : OpenAPISpec) (ctx : AnalysisContext) (m : SpecAnalysis)
    (h : analyze spec = Except.ok m) :
    analyzeWithContext spec ctx = Except.ok
      { m with capabilities :=
          { m.capabilities with
              requiresStrictValidation :=
                if ctx.environment == some "production" then some true
                else m.capabilities.requiresStrictValidation
              hasTestMode :=
                if rootsMentionTest ctx then some true
                else m.capabilities.hasTestMode } } := by
  unfold analyzeWithContext
  rw [h]
  simp only []
  by_cases he : (ctx.environment == some "production") = true
  · rw [if_pos he, if_pos he]
    by_cases ht : rootsMentionTest ctx = true
    · rw [if_pos ht, if_pos ht]
    · rw [if_neg ht, if_neg ht]
  · rw [if_neg he, if_neg he]
    by_cases ht : rootsMentionTest ctx = true
    · rw [if_pos ht, if_pos ht]
    · rw [if_neg ht, if_neg ht]

def docC6 : OpenAPISpec := { paths := some [], components := none, webhooks := false }

def ctxC6 : AnalysisContext :=
  { environment := some "production", roots := some [{ name := "test-root" }] }

def c6model : SpecAnalysis := modelOf docC6

theorem c6_witness :
    analyzeWithContext docC6 ctxC6 = Except.ok
      { c6model with capabilities :=
          { c6model.capabilities with
              requiresStrictValidation :=
                if ctxC6.environment == some "production" then some true
                else c6model.capabilities.requiresStrictValidation
              hasTestMode :=
                if rootsMentionTest ctxC6 then some true
                else c6model.capabilities.hasTestMode } } :=
  c6_context_overlay docC6 ctxC6 c6model rfl

/-! ## Claim C1 -/

def c1opBad : Operation :=
  { summary := none, description := none, parameters := some [{ name := none }],
    requestBody := none, responses := some [] }

def docC1bad : OpenAPISpec :=
  { paths := some [("/a", [("get", PathValue.opObj c1opBad)])],
    components := none, webhooks := false }

/-- Claim C1, counterexample: on a document whose only gap is one parameter without
a name — a case the claim lists among the optional sub-fields — `analyze`
does not return a model: the pagination scan evaluates
`p.name.toLowerCase()` and throws a `TypeError`. -/
theorem c1_counterexample :
    analyze docC1bad = Except.error "TypeError: cannot read toLowerCase of undefined" := rfl

/-- Every parameter of every operation-shaped entry carries a name. -/
def paramsAllNamed (spec : OpenAPISpec) : Bool :=
  (spec.paths.getD []).all (fun pkv =>
    pkv.2.all (fun mkv =>
      match mkv.2 with
      | PathValue.opObj o => (o.parameters.getD []).all (fun p => p.name.isSome)
      | PathValue.other => true))

lemma hasPaginationParameters_ok_of_named {op : Operation}
    (h : (op.parameters.getD []).all (fun p => p.name.isSome) = true) :
    ∃ b, hasPaginationParameters op = Except.ok b := by
  apply someE_ok_of_forall
  intro p hp
  have hn : p.name.isSome = true := by simpa using List.all_eq_true.mp h p hp
  cases hpn : p.name with
  | none => rw [hpn] at hn; simp at hn
  | some nm => exact ⟨_, rfl⟩

/-- Claim C1, amended: `analyze` never fails on a structurally valid but incomplete
document in which every declared parameter carries a name (absent sections
and other absent sub-fields are treated as empty); the name requirement is
exactly what the counterexample forces, and matches the declared `Parameter`
type of the repository, where `name` is a required field. -/
theorem c1_total_when_params_named (spec : OpenAPISpec)
    (h : paramsAllNamed spec = true) : ∃ m, analyze spec = Except.ok m := by
  have key : ∀ e ∈ analyzePaths spec,
      ∃ b, hasPaginationParameters e.operation = Except.ok b := by
    intro e he
    obtain ⟨pkv, hpkv, mkv, hmkv, hop, hpath, hmethod, hval⟩ := mem_analyzePaths_elim he
    apply hasPaginationParameters_ok_of_named
    have h0 : ((spec.paths.getD []).all (fun pkv =>
        pkv.2.all (fun mkv =>
          match mkv.2 with
          | PathValue.opObj o => (o.parameters.getD []).all (fun p => p.name.isSome)
          | PathValue.other => true))) = true := h
    have h1 := List.all_eq_true.mp h0 pkv hpkv
    have h2 := List.all_eq_true.mp h1 mkv hmkv
    rw [hval] at h2
    simpa using h2
  obtain ⟨b, hb⟩ := someE_ok_of_forall key
  have hb2 : hasPaginationPattern (analyzePaths spec) = Except.ok b := hb
  have hw : ∃ ws, detectWorkflows (analyzePaths spec) = Except.ok ws := by
    unfold detectWorkflows
    rw [hb2]
    exact ⟨_, rfl⟩
  have hc : ∃ caps, analyzeCapabilities spec (analyzePaths spec) = Except.ok caps := by
    unfold analyzeCapabilities
    rw [hb2]
    exact ⟨_, rfl⟩
  obtain ⟨ws, hws⟩ := hw
  obtain ⟨caps, hcaps⟩ := hc
  exact ⟨assembleAnalysis spec ws caps, by rw [analyze_eq, hws, hcaps]⟩

def docC1good : OpenAPISpec :=
  { paths := some [("/users",
      [("get", PathValue.opObj
        { summary := some "List users", description := none,
          parameters := some [{ name := some "page" }], requestBody := none,
          responses := some [("200", { description := some "ok", headers := none })] })])],
    components := none, webhooks := false }

theorem c1_witness :
    paramsAllNamed docC1good = true ∧ ∃ m, analyze docC1good = Except.ok m :=
  ⟨by decide, c1_total_when_params_named docC1good (by decide)⟩

/-! ## Claim C2 -/

def docC2 : OpenAPISpec :=
  { paths := none
    components := some { schemas := some [("Pet", { properties := none })], securitySchemes := false }
    webhooks := false }

def c2model : SpecAnalysis := modelOf docC2

/-- Claim C2, counterexample: on a document missing the paths section entirely,
`analyze` raises no "invalid specification document" error; it returns a
fully computed model (here with one resource and no endpoints). -/
theorem c2_counterexample :
    docC2.paths = none ∧ analyze docC2 = Except.ok c2model ∧
      c2model.resources ≠ [] := ⟨rfl, rfl, by decide⟩

/-- Claim C2, amended: a document missing the paths section is not rejected: it is
analyzed exactly as if paths were the empty map, and `analyze` returns a
model with no endpoints and no workflows (no error of any kind is raised for
the missing section). -/
theorem c2_missing_paths_as_empty (spec : OpenAPISpec) (h : spec.paths = none) :
    analyze spec = analyze { spec with paths := some [] } ∧
      ∃ m, analyze spec = Except.ok m ∧ m.endpoints = [] ∧ m.workflows = [] := by
  obtain ⟨p, comps, wh⟩ := spec
  simp only [] at h
  subst h
  exact ⟨rfl, ⟨_, rfl, rfl, rfl⟩⟩

def docC2w : OpenAPISpec := { paths := none, components := none, webhooks := true }

theorem c2_witness :
    docC2w.paths = none ∧
      (analyze docC2w = analyze { docC2w with paths := some [] } ∧
        ∃ m, analyze docC2w = Except.ok m ∧ m.endpoints = [] ∧ m.workflows = []) :=
  ⟨rfl, c2_missing_paths_as_empty docC2w rfl⟩

/-! ## Claim C3 -/

def docC3 : OpenAPISpec :=
  { paths := some [("/a",
      [("head", PathValue.opObj
        { summary := none, description := none, parameters := none, requestBody := none,
          responses := some [("200", { description := some "ok", headers := none })] })])],
    components := none, webhooks := false }

def c3model : SpecAnalysis := modelOf docC3

/-- Claim C3, counterexample: a path item whose only entry sits under the key
"head" (an operation object with a responses collection) is emitted as an
endpoint with method "HEAD", which is outside the claimed verb set —
`analyzePaths` performs no method filtering. -/
theorem c3_counterexample :
    analyze docC3 = Except.ok c3model ∧
      c3model.endpoints.map AnalyzedEndpoint.method = ["HEAD"] ∧
      "HEAD" ∉ (["GET", "POST", "PUT", "DELETE", "PATCH"] : List String) :=
  ⟨rfl, rfl, by decide⟩

/-- Claim C3, amended: every endpoint of a produced model comes from a path-item
entry whose value passes the operation test (has a summary, description or
responses key); its method is the uppercased entry key, with no restriction
to the five recognized verbs. -/
theorem c3_method_uppercased_key (spec : OpenAPISpec) (m : SpecAnalysis)
    (h : analyze spec = Except.ok m) :
    ∀ e ∈ m.endpoints, ∃ pkv ∈ spec.paths.getD [], ∃ mkv ∈ pkv.2,
      isOperation mkv.2 = true ∧ e.path = pkv.1 ∧ e.method = jsUpper mkv.1 := by
  obtain ⟨ws, caps, hw, hc, rfl⟩ := analyze_ok_elim h
  intro e he
  have he2 : e ∈ analyzePaths spec := he
  obtain ⟨pkv, h1, mkv, h2, h3, h4, h5, h6⟩ := mem_analyzePaths_elim he2
  exact ⟨pkv, h1, mkv, h2, h3, h4, h5⟩

def c3wop : Operation :=
  { summary := some "List pets", description := none, parameters := none,
    requestBody := none,
    responses := some [("200", { description := some "ok", headers := none })] }

def docC3w : OpenAPISpec :=
  { paths := some [("/pets", [("get", PathValue.opObj c3wop)])],
    components := none, webhooks := false }

def c3wmodel : SpecAnalysis := modelOf docC3w

def c3wendpoint : AnalyzedEndpoint :=
  { path := "/pets", method := "GET", operation := c3wop,
    isAction := false, isResource := true, complexity := 1 }

theorem c3_witness :
    ∃ pkv ∈ docC3w.paths.getD [], ∃ mkv ∈ pkv.2,
      isOperation mkv.2 = true ∧ c3wendpoint.path = pkv.1 ∧
        c3wendpoint.method = jsUpper mkv.1 :=
  c3_method_uppercased_key docC3w c3wmodel rfl c3wendpoint (by decide)

/-! ## Claim C4 -/

def docC4 : OpenAPISpec :=
  { paths := some [("/items",
      [("get", PathValue.opObj
        { summary := some "List items", description := none,
          parameters := some [{ name := some "page" }], requestBody := none,
          responses := some [("200", { description := some "ok", headers := none })] })])],
    components := none, webhooks := false }

def c4model : SpecAnalysis := modelOf docC4

/-- Claim C4: on a document with a pagination parameter, exactly one pagination
workflow with 4 ordered steps is emitted — but its `type` is the string
"navigation", which is not a member of the declared type union
crud/auth/pagination/multipart/async/custom of `WorkflowPattern`, while the
claim (and the repository type declaration) require "pagination". -/
theorem c4_pagination_workflow_type :
    analyze docC4 = Except.ok c4model ∧
      c4model.workflows.map WorkflowPattern.name = ["pagination"] ∧
      c4model.workflows.map WorkflowPattern.type = ["navigation"] ∧
      c4model.workflows.map (fun w => w.steps.length) = [4] ∧
      "navigation" ∉ (["crud", "auth", "pagination", "multipart", "async", "custom"] : List String) :=
  ⟨rfl, rfl, rfl, rfl, by decide⟩

/-! ## Claim C5 -/

def c5schemaA : Schema :=
  { properties := some
      [("widget", { ref := some "#/components/schemas/Missing", type := none, items := none })] }

def docC5 : OpenAPISpec :=
  { paths := some []
    components := some { schemas := some [("A", c5schemaA)], securitySchemes := false }
    webhooks := false }

def c5model : SpecAnalysis := modelOf docC5

/-- Claim C5, counterexample: a reference whose target "Missing" is not in the
schema set is not dropped: a relationship record with `to = "Missing"` is
emitted even though no schema of that name exists. -/
theorem c5_counterexample :
    analyze docC5 = Except.ok c5model ∧
      c5model.relationships = [{ from_ := "A", to_ := "Missing", type := "has_one" }] ∧
      c5model.resources.map AnalyzedResource.name = ["A"] ∧
      "Missing" ∉ c5model.resources.map AnalyzedResource.name :=
  ⟨rfl, rfl, rfl, by decide⟩

/-- Claim C5, amended: every relationship's `to` field is a name extracted from a
reference pointer among the direct properties of the source schema
(`findSchemaRelationships`, which silently drops pointers not matching the
`#/components/schemas/` shape and self-references) — but it is never checked
for membership in the document's schema set. -/
theorem c5_to_from_pointer (spec : OpenAPISpec) (m : SpecAnalysis)
    (h : analyze spec = Except.ok m) :
    ∀ r ∈ m.relationships, ∃ kv ∈ jsSchemas spec,
      r.from_ = kv.1 ∧ r.to_ ∈ findSchemaRelationships kv.1 kv.2 ∧ r.to_ ≠ r.from_ := by
  obtain ⟨ws, caps, hw, hc, rfl⟩ := analyze_ok_elim h
  intro r hr
  have hr2 : r ∈ analyzeRelationships (analyzeResources spec) := hr
  obtain ⟨res, hres, rel, hrel, hfrom, hto⟩ := mem_analyzeRelationships_elim hr2
  obtain ⟨kv, hkv, hname, hschema, hrels⟩ := mem_analyzeResources_elim hres
  rw [hrels] at hrel
  refine ⟨kv, hkv, by rw [hfrom, hname], by rw [hto]; exact hrel, ?_⟩
  rw [hto, hfrom, hname]
  exact mem_findSchemaRelationships_ne hrel

def c5rel : ResourceRelationship := { from_ := "A", to_ := "Missing", type := "has_one" }

theorem c5_witness :
    ∃ kv ∈ jsSchemas docC5, c5rel.from_ = kv.1 ∧
      c5rel.to_ ∈ findSchemaRelationships kv.1 kv.2 ∧ c5rel.to_ ≠ c5rel.from_ :=
  c5_to_from_pointer docC5 c5model rfl c5rel (by decide)

end SpecAnalyzer
